import Mathlib

/-!
Verification of the moonlight-common-c control-stream and input-stream code.

Bytes are modelled as natural numbers below 256, byte buffers as `List Nat`.
The AES-128-GCM primitive provided by OpenSSL (an external collaborator of
this repository) is modelled parametrically: GCM is counter-mode encryption,
so a ciphertext byte is the plaintext byte XORed with a keystream byte that
depends only on the key, the IV and the byte position, and the 16-byte
authentication tag is an arbitrary function of key, IV and ciphertext.
Every property proved below holds for every such keystream and tag function,
hence in particular for AES-128-GCM.
-/

namespace Moonlight

/-- Little-endian encoding of a 16-bit value, as written for the
`unsigned short` header fields of the control stream. -/
def leBytes16 (n : Nat) : List Nat :=
  [n % 256, n / 256 % 256]

/-- Little-endian encoding of a 32-bit value (the `seq` field of
`NVCTL_ENCRYPTED_PACKET_HEADER`). -/
def leBytes32 (n : Nat) : List Nat :=
  [n % 256, n / 256 % 256, n / 65536 % 256, n / 16777216 % 256]

/-- Little-endian encoding of a 64-bit value (an `int64_t` stored on a
little-endian host, or byte-swapped on a big-endian host as the
`BIGENDIAN` branches of the code do). -/
def leBytes64 (n : Nat) : List Nat :=
  [n % 256, n / 2 ^ 8 % 256, n / 2 ^ 16 % 256, n / 2 ^ 24 % 256,
   n / 2 ^ 32 % 256, n / 2 ^ 40 % 256, n / 2 ^ 48 % 256, n / 2 ^ 56 % 256]

/-- Big-endian encoding of a 32-bit value (the `htonl` length written in
front of legacy input wire frames). -/
def beBytes32 (n : Nat) : List Nat :=
  [n / 16777216 % 256, n / 65536 % 256, n / 256 % 256, n % 256]

/-- Big-endian encoding of a 64-bit value; used only to state what the
specification claims about the IDR payload byte order. -/
def beBytes64 (n : Nat) : List Nat :=
  (leBytes64 n).reverse

/-- Read a little-endian 16-bit value from the front of a buffer
(mirrors `BbGet16` with `BYTE_ORDER_LITTLE`). -/
def readLE16 (l : List Nat) : Nat :=
  l.getD 0 0 + 256 * l.getD 1 0

/-- Read a little-endian 32-bit value from the front of a buffer. -/
def readLE32 (l : List Nat) : Nat :=
  l.getD 0 0 + 256 * l.getD 1 0 + 65536 * l.getD 2 0 + 16777216 * l.getD 3 0

/-- Read a big-endian 32-bit value from the front of a buffer
(mirrors `BbGet32` with `BYTE_ORDER_BIG`). -/
def readBE32 (l : List Nat) : Nat :=
  16777216 * l.getD 0 0 + 65536 * l.getD 1 0 + 256 * l.getD 2 0 + l.getD 3 0

theorem readLE16_leBytes16 (n : Nat) (h : n < 65536) (rest : List Nat) :
    readLE16 (leBytes16 n ++ rest) = n := by
  simp [readLE16, leBytes16]
  omega

theorem readLE32_leBytes32 (n : Nat) (h : n < 4294967296) (rest : List Nat) :
    readLE32 (leBytes32 n ++ rest) = n := by
  simp [readLE32, leBytes32]
  omega

/-- Parametric model of the AES-128-GCM primitive of OpenSSL: a keystream
(GCM encrypts in counter mode, so byte `i` of the ciphertext is byte `i` of
the plaintext XORed with a keystream byte determined by key, IV and `i`)
and a 16-byte authentication tag computed from key, IV and ciphertext. -/
structure GcmPrims where
  ks : List Nat → List Nat → Nat → Nat
  tagFn : List Nat → List Nat → List Nat → Fin 16 → Nat

/-- XOR a buffer with a keystream starting at stream position `i`
(counter-mode encryption and decryption). -/
def xorStream (f : Nat → Nat) : Nat → List Nat → List Nat
  | _, [] => []
  | i, b :: rest => (b ^^^ f i % 256) :: xorStream f (i + 1) rest

theorem xorStream_length (f : Nat → Nat) :
    ∀ (i : Nat) (l : List Nat), (xorStream f i l).length = l.length
  | _, [] => rfl
  | i, _ :: rest => by
    simp [xorStream, xorStream_length f (i + 1) rest]

theorem xorStream_xorStream (f : Nat → Nat) :
    ∀ (i : Nat) (l : List Nat), xorStream f i (xorStream f i l) = l
  | _, [] => rfl
  | i, b :: rest => by
    simp [xorStream, xorStream_xorStream f (i + 1) rest, Nat.xor_cancel_right]

/-- The 16-byte GCM authentication tag as a byte list. -/
def gcmTagBytes (g : GcmPrims) (key iv ct : List Nat) : List Nat :=
  List.ofFn (g.tagFn key iv ct)

theorem gcmTagBytes_length (g : GcmPrims) (key iv ct : List Nat) :
    (gcmTagBytes g key iv ct).length = 16 := by
  simp [gcmTagBytes]

/-- IV derivation of the control stream: 16 zero bytes with byte 0 set to
the low byte of `seq` (the truncating cast `iv[0] = (unsigned char)seq`
in `encryptControlMessage` and `decryptControlMessageToV1`). -/
def gcmIv (seq : Nat) : List Nat :=
  seq % 256 :: List.replicate 15 0

/-- Plaintext of an encrypted control message: the V2 inner header
`[type: u16 LE][payloadLength: u16 LE]` followed by the payload, exactly as
`sendMessageEnet` assembles it in `tempBuffer`. -/
def controlPlaintext (ptype : Nat) (payload : List Nat) : List Nat :=
  leBytes16 ptype ++ leBytes16 payload.length ++ payload

/-- GCM body produced by `encryptControlMessage`: the 16-byte tag written
right after the encrypted header, followed by the ciphertext. -/
def encryptControlMessage (g : GcmPrims) (key : List Nat) (seq : Nat)
    (pt : List Nat) : List Nat :=
  let iv := gcmIv seq
  let ct := xorStream (g.ks key iv) 0 pt
  gcmTagBytes g key iv ct ++ ct

/-- Full wire frame of an encrypted control message as built by
`sendMessageEnet`: `[0x0001: u16 LE][length: u16 LE][seq: u32 LE]` followed
by the GCM body, where `length = sizeof(seq) + 16 + sizeof(V2 header) +
payload length`. -/
def sendMessageEnetEncrypted (g : GcmPrims) (key : List Nat) (seq ptype : Nat)
    (payload : List Nat) : List Nat :=
  let pt := controlPlaintext ptype payload
  leBytes16 1 ++ leBytes16 (4 + 16 + pt.length) ++ leBytes32 seq ++
    encryptControlMessage g key seq pt

/-- Model of `decryptControlMessageToV1`. The first guard mirrors the
receive-path check that the packet is at least as long as
`NVCTL_ENCRYPTED_PACKET_HEADER` (8 bytes); the `length < 4 + 16 + 4` guard
is the runt check of the function itself.  On success the V2 plaintext is
converted in place to a V1 packet by deleting the two-byte inner
`payloadLength` field (the `memmove` by 2 bytes), and the reported length
is the plaintext length minus 2. -/
def decryptControlMessageToV1 (g : GcmPrims) (key : List Nat)
    (wire : List Nat) : Option (List Nat) :=
  if wire.length < 8 then none
  else
    let len := readLE16 (wire.drop 2)
    let seq := readLE32 (wire.drop 4)
    if len < 4 + 16 + 4 then none
    else
      let iv := gcmIv seq
      let ptLen := len - 4 - 16
      let tag := (wire.drop 8).take 16
      let ct := (wire.drop 24).take ptLen
      if gcmTagBytes g key iv ct = tag then
        let pt := xorStream (g.ks key iv) 0 ct
        some (pt.take 2 ++ pt.drop 4)
      else none

/-- Fully trivial instance of the GCM primitives, used to evaluate the
parametric theorems on concrete inputs. -/
def zeroGcm : GcmPrims :=
  ⟨fun _ _ _ => 0, fun _ _ _ _ => 0⟩



/-- C1: for every plaintext made of a V2 inner header plus payload with total
length at most 4096 and every `seq < 2^24`, decrypting the wire frame produced
by the control-stream GCM encrypt recovers the plaintext, and the in-place
V2-to-V1 transformation yields the type followed by the payload with reported
length equal to the plaintext length minus 2. -/
theorem control_gcm_roundtrip (g : GcmPrims) (key : List Nat) (ptype seq : Nat)
    (payload : List Nat) (hlen : 4 + payload.length ≤ 4096) (hseq : seq < 2 ^ 24) :
    decryptControlMessageToV1 g key (sendMessageEnetEncrypted g key seq ptype payload)
      = some (leBytes16 ptype ++ payload)
    ∧ (leBytes16 ptype ++ payload).length = (controlPlaintext ptype payload).length - 2 := by
  have hptlen : (controlPlaintext ptype payload).length = 4 + payload.length := by
    simp [controlPlaintext, leBytes16]
    omega
  constructor
  · set pt := controlPlaintext ptype payload with hpt
    set iv := gcmIv seq with hiv
    set ct := xorStream (g.ks key iv) 0 pt with hct
    have hctlen : ct.length = pt.length := xorStream_length _ _ _
    set wire := sendMessageEnetEncrypted g key seq ptype payload with hwiredef
    have hwire : wire = leBytes16 1 ++
        (leBytes16 (4 + 16 + pt.length) ++ (leBytes32 seq ++ (gcmTagBytes g key iv ct ++ ct))) := by
      rw [hwiredef]
      rfl
    have hwlen : wire.length = 24 + pt.length := by
      rw [hwire]
      simp [leBytes16, leBytes32, gcmTagBytes, hctlen]
      omega
    have d2 : wire.drop 2 =
        leBytes16 (4 + 16 + pt.length) ++ (leBytes32 seq ++ (gcmTagBytes g key iv ct ++ ct)) := by
      rw [hwire]
      exact List.drop_left' (by simp [leBytes16])
    have d4 : wire.drop 4 = leBytes32 seq ++ (gcmTagBytes g key iv ct ++ ct) := by
      have h : List.drop 2 (List.drop 2 wire) = List.drop 4 wire := List.drop_drop 2 2 wire
      rw [← h, d2]
      exact List.drop_left' (by simp [leBytes16])
    have d8 : wire.drop 8 = gcmTagBytes g key iv ct ++ ct := by
      have h : List.drop 4 (List.drop 4 wire) = List.drop 8 wire := List.drop_drop 4 4 wire
      rw [← h, d4]
      exact List.drop_left' (by simp [leBytes32])
    have d24 : wire.drop 24 = ct := by
      have h : List.drop 16 (List.drop 8 wire) = List.drop 24 wire := List.drop_drop 8 16 wire
      rw [← h, d8]
      exact List.drop_left' (gcmTagBytes_length g key iv ct)
    have r16 : readLE16 (wire.drop 2) = 4 + 16 + pt.length := by
      rw [d2]
      exact readLE16_leBytes16 _ (by omega) _
    have r32 : readLE32 (wire.drop 4) = seq := by
      rw [d4]
      exact readLE32_leBytes32 _ (by omega) _
    have hctslice : (wire.drop 24).take (4 + 16 + pt.length - 4 - 16) = ct := by
      rw [d24, show 4 + 16 + pt.length - 4 - 16 = ct.length by omega]
      exact List.take_length ct
    have htagslice : (wire.drop 8).take 16 = gcmTagBytes g key iv ct := by
      rw [d8]
      exact List.take_left' (gcmTagBytes_length g key iv ct)
    unfold decryptControlMessageToV1
    rw [if_neg (by rw [hwlen]; omega)]
    simp only [r16, r32]
    rw [if_neg (by omega)]
    simp only [hctslice, htagslice, if_pos rfl]
    rw [hct, xorStream_xorStream, hpt]
    simp [controlPlaintext, leBytes16]
  · rw [hptlen]
    simp [leBytes16]
    omega

/-- Concrete instance discharging the hypotheses of the roundtrip theorem. -/
theorem control_gcm_roundtrip_witness :
    4 + [7, 8, 9].length ≤ 4096 ∧ 3 < 2 ^ 24 ∧
    decryptControlMessageToV1 zeroGcm [] (sendMessageEnetEncrypted zeroGcm [] 3 5 [7, 8, 9])
      = some (leBytes16 5 ++ [7, 8, 9]) :=
  ⟨by decide, by decide,
    (control_gcm_roundtrip zeroGcm [] 5 3 [7, 8, 9] (by decide) (by decide)).1⟩


/-- Success or failure of each OpenSSL step inside `encryptControlMessage`:
cipher initialization, IV-length setup, key/IV initialization, the encrypt
update, the encrypt finalization, and extraction of the authentication tag. -/
structure GcmSteps where
  encryptInitOk : Bool
  setIvLenOk : Bool
  keyIvInitOk : Bool
  updateOk : Bool
  finalOk : Bool
  getTagOk : Bool
deriving DecidableEq

/-- Conversion of a C integer to `_Bool`: any nonzero value becomes `true`. -/
def cIntToBool (n : Int) : Bool :=
  decide (n ≠ 0)

/-- Return value of `encryptControlMessage` as a function of which GCM steps
succeed, translated branch by branch from the C control flow.  The variable
`ret` starts at `false`; each failing step jumps to `gcm_cleanup` keeping the
current `ret`, except the tag-extraction failure which first executes
`ret = -1` -- an assignment of `-1` to a C `_Bool`, which stores `true`. -/
def encryptControlMessageRet (s : GcmSteps) : Bool :=
  if s.encryptInitOk = false then false
  else if s.setIvLenOk = false then false
  else if s.keyIvInitOk = false then false
  else if s.updateOk = false then false
  else if s.finalOk = false then false
  else if s.getTagOk = false then cIntToBool (-1)
  else true

/-- Whether `sendMessageEnet` transmits the frame: it destroys the packet and
returns `false` only when `encryptControlMessage` reported failure. -/
def sendMessageEnetSends (s : GcmSteps) : Bool :=
  encryptControlMessageRet s

/-- C5: when every GCM step succeeds except the extraction of the
authentication tag, `encryptControlMessage` reports success (the `ret = -1`
assignment coerces to `true` in a `_Bool`), so `sendMessageEnet` transmits
the wire frame even though a GCM step failed -- contradicting the claim that
failure is reported whenever any GCM step fails. -/
theorem encryptControlMessage_tagFail_reportsSuccess :
    encryptControlMessageRet ⟨true, true, true, true, true, false⟩ = true
    ∧ sendMessageEnetSends ⟨true, true, true, true, true, false⟩ = true := by
  constructor
  · decide
  · decide

/-- Result of the Termination dispatch in `controlReceiveThreadFunc`,
abstracting the distinguished `ML_ERROR_*` codes (defined outside `src/`) as
constructors and any other server value as a pass-through. -/
inductive TerminationResult where
  | gracefulTermination
  | unexpectedEarlyTermination
  | protectedContent
  | passthrough (code : Nat)
deriving DecidableEq

/-- Termination dispatch of `controlReceiveThreadFunc`, translated from the
code: `packet` is the V1 packet (2-byte type header followed by the payload)
and `packetLength` is its length.  If `packetLength >= 6` the payload is read
as a big-endian u32 HRESULT, otherwise as a little-endian u16 legacy reason;
`0x80030023` and legacy `0x0100` map by the any-frame-seen rule and
`0x800e9302` maps to protected content. -/
def dispatchTermination (packet : List Nat) (lastSeenFrame : Nat) : TerminationResult :=
  if 6 ≤ packet.length then
    let code := readBE32 (packet.drop 2)
    if code = 0x80030023 then
      if lastSeenFrame ≠ 0 then .gracefulTermination else .unexpectedEarlyTermination
    else if code = 0x800e9302 then .protectedContent
    else .passthrough code
  else
    let reason := readLE16 (packet.drop 2)
    if reason = 0x0100 then
      if lastSeenFrame ≠ 0 then .gracefulTermination else .unexpectedEarlyTermination
    else .passthrough reason

/-- HRESULT mapping exactly as the specification words it. -/
def specHresultMap (code : Nat) (lastSeenFrame : Nat) : TerminationResult :=
  if code = 0x80030023 then
    if lastSeenFrame ≠ 0 then .gracefulTermination else .unexpectedEarlyTermination
  else if code = 0x800e9302 then .protectedContent
  else .passthrough code

/-- Legacy-reason mapping exactly as the specification words it. -/
def specLegacyMap (reason : Nat) (lastSeenFrame : Nat) : TerminationResult :=
  if reason = 0x0100 then
    if lastSeenFrame ≠ 0 then .gracefulTermination else .unexpectedEarlyTermination
  else .passthrough reason

/-- Termination dispatch as the claim words it: the HRESULT path is taken
when the PAYLOAD (the packet minus its 2-byte type header) is at least
6 bytes. -/
def claimTermination (packet : List Nat) (lastSeenFrame : Nat) : TerminationResult :=
  if 6 ≤ (packet.drop 2).length then specHresultMap (readBE32 (packet.drop 2)) lastSeenFrame
  else specLegacyMap (readLE16 (packet.drop 2)) lastSeenFrame

/-- C2, counterexample: on a Termination packet whose payload is exactly the
4 bytes `80 03 00 23`, the code reads a big-endian HRESULT (the packet is
6 bytes long), while the claim's payload-at-least-6-bytes rule would read a
little-endian u16 legacy reason `0x0380` and pass it through. -/
theorem dispatchTermination_boundary_counterexample :
    dispatchTermination [0x09, 0x01, 0x80, 0x03, 0x00, 0x23] 0
      ≠ claimTermination [0x09, 0x01, 0x80, 0x03, 0x00, 0x23] 0 := by
  decide

/-- C2 (amended): the HRESULT path is taken when the payload is at least
4 bytes (total V1 packet at least 6 bytes); on it the big-endian u32 maps
`0x80030023` by the any-frame-seen rule, `0x800e9302` to protected content,
everything else passes through.  Payloads of 2 or 3 bytes are read as a
little-endian u16 legacy reason, with `0x0100` mapped by the same rule and
everything else passed through. -/
theorem dispatchTermination_correct (t0 t1 : Nat) (payload : List Nat) (lastSeen : Nat) :
    (4 ≤ payload.length →
      dispatchTermination (t0 :: t1 :: payload) lastSeen
        = specHresultMap (readBE32 payload) lastSeen)
    ∧ (payload.length < 4 →
      dispatchTermination (t0 :: t1 :: payload) lastSeen
        = specLegacyMap (readLE16 payload) lastSeen) := by
  constructor
  · intro h
    simp only [dispatchTermination, List.length_cons, List.drop_succ_cons, List.drop_zero]
    rw [if_pos (by omega)]
    rfl
  · intro h
    simp only [dispatchTermination, List.length_cons, List.drop_succ_cons, List.drop_zero]
    rw [if_neg (by omega)]
    rfl

/-- Concrete instances discharging the hypotheses of the amended C2 theorem:
a 4-byte graceful-close HRESULT after a frame was seen, and a 2-byte legacy
reason `0x0200` passed through unchanged. -/
theorem dispatchTermination_correct_witness :
    (4 ≤ [0x80, 0x03, 0x00, 0x23].length ∧
      dispatchTermination [0x09, 0x01, 0x80, 0x03, 0x00, 0x23] 7
        = specHresultMap 0x80030023 7)
    ∧ ([0x00, 0x02].length < 4 ∧
      dispatchTermination [0x09, 0x01, 0x00, 0x02] 7
        = specLegacyMap 0x0200 7) :=
  ⟨⟨by decide, by
      have h := (dispatchTermination_correct 0x09 0x01 [0x80, 0x03, 0x00, 0x23] 7).1 (by decide)
      simpa [readBE32] using h⟩,
   ⟨by decide, by
      have h := (dispatchTermination_correct 0x09 0x01 [0x00, 0x02] 7).2 (by decide)
      simpa [readLE16] using h⟩⟩


/-- Aggregation loop of `requestInvalidateReferenceFrames`: with the head
tuple already popped and `payload[1]` holding its end frame, repeatedly poll
the queue, overwrite `payload[1]` with the polled tuple's end frame and free
the tuple, until the queue is empty.  Returns the final `payload[1]` and the
(always empty) remaining queue. -/
def invalidateLoop : Int → List (Int × Int) → Int × List (Int × Int)
  | e, [] => (e, [])
  | _, q :: rest => invalidateLoop q.2 rest

/-- One run of `requestInvalidateReferenceFrames` over the queued
invalidation tuples: if the queue is empty nothing is sent; otherwise the
head tuple seeds `payload = (start, end, 0)` and the loop extends
`payload[1]`.  Returns the InvalidateRefFrames payload (if one is sent) and
the remaining queue. -/
def requestInvalidateReferenceFrames :
    List (Int × Int) → Option (Int × Int × Int) × List (Int × Int)
  | [] => (none, [])
  | q :: rest =>
    let r := invalidateLoop q.2 rest
    (some (q.1, r.1, 0), r.2)

theorem invalidateLoop_getLastD (l : List (Int × Int)) :
    ∀ d : Int × Int, invalidateLoop d.2 l = ((l.getLastD d).2, []) := by
  induction l with
  | nil => intro d; rfl
  | cons q rest ih =>
    intro d
    rw [List.getLastD_cons]
    exact ih q

/-- C3: when the queue holds tuples `(a1,b1) … (an,bn)` in insertion order
with `ai ≤ bi` and `bi ≤ b(i+1)`, a single run of the non-IDR path of the
invalidation worker sends exactly one InvalidateRefFrames payload, namely
`(a1, bn, 0)`, and consumes every queued tuple. -/
theorem requestInvalidate_coalesces (ts : List (Int × Int)) (hne : ts ≠ [])
    (hab : ∀ p ∈ ts, p.1 ≤ p.2)
    (hmono : (ts.map Prod.snd).Chain' (fun x y => x ≤ y)) :
    requestInvalidateReferenceFrames ts
      = (some ((ts.headD (0, 0)).1, (ts.getLastD (0, 0)).2, 0), []) := by
  match ts with
  | [] => exact absurd rfl hne
  | q :: rest =>
    simp only [requestInvalidateReferenceFrames, List.headD_cons, List.getLastD_cons]
    rw [invalidateLoop_getLastD rest q]

/-- Concrete instance discharging the hypotheses of the C3 theorem. -/
theorem requestInvalidate_coalesces_witness :
    ([((1 : Int), (2 : Int)), (2, 5), (4, 9)] ≠ []
      ∧ (∀ p ∈ [((1 : Int), (2 : Int)), (2, 5), (4, 9)], p.1 ≤ p.2)
      ∧ ([((1 : Int), (2 : Int)), (2, 5), (4, 9)].map Prod.snd).Chain' (fun x y => x ≤ y))
    ∧ requestInvalidateReferenceFrames [((1 : Int), (2 : Int)), (2, 5), (4, 9)]
        = (some (1, 9, 0), []) :=
  ⟨⟨by decide, by decide, by norm_num [List.chain'_cons]⟩,
    requestInvalidate_coalesces _ (by decide) (by decide) (by norm_num [List.chain'_cons])⟩

/-- Bytes of an `int64_t` value as they leave `sendMessageAndDiscardReply`:
the in-memory layout on a little-endian host, which the `BIGENDIAN` branch
reproduces with `__bswap64` on big-endian hosts (two's complement, low byte
first). -/
def int64LeBytes (i : Int) : List Nat :=
  leBytes64 ((i % (2 ^ 64 : Int)).toNat)

/-- The 24-byte InvalidateRefFrames payload sent by `requestIdrFrame` on
profiles with `AppVersionQuad[0] >= 5`: `payload[0]` is `lastSeenFrame - 0x20`
clamped at zero, `payload[1]` is `lastSeenFrame`, `payload[2]` is zero. -/
def requestIdrFramePayloadGen5 (lastSeenFrame : Int) : List Nat :=
  let first : Int := if lastSeenFrame < 0x20 then 0 else lastSeenFrame - 0x20
  int64LeBytes first ++ int64LeBytes lastSeenFrame ++ int64LeBytes 0

/-- The IDR payload as the claim words it: three u64 fields in big-endian
byte order. -/
def specIdrPayloadBE (lastSeenFrame : Int) : List Nat :=
  beBytes64 (max 0 (lastSeenFrame - 32)).toNat ++ beBytes64 lastSeenFrame.toNat
    ++ beBytes64 0

/-- C7, counterexample: with `lastSeenFrame = 1` the payload bytes put the
value `1` at offset 8 (little-endian u64 fields), not at offset 15 as the
claimed big-endian layout would. -/
theorem requestIdrFrame_payload_not_be :
    requestIdrFramePayloadGen5 1 ≠ specIdrPayloadBE 1 := by
  decide

/-- C7 (amended): for every `lastSeenFrame` in the range of a nonnegative C
`int`, the Gen5+ IDR request payload is `firstFrame`, `lastSeenFrame` and `0`
as three u64 fields in LITTLE-endian byte order, with
`firstFrame = max(0, lastSeenFrame - 32)`. -/
theorem requestIdrFrame_payload_le (n : Int) (h0 : 0 ≤ n) (h1 : n < 2 ^ 31) :
    requestIdrFramePayloadGen5 n
      = leBytes64 (max 0 (n - 32)).toNat ++ leBytes64 n.toNat ++ leBytes64 0 := by
  have hmod : ∀ m : Int, 0 ≤ m → m < 2 ^ 64 → (m % (2 ^ 64 : Int)).toNat = m.toNat := by
    intro m hm0 hm1
    rw [Int.emod_eq_of_lt hm0 hm1]
  simp only [requestIdrFramePayloadGen5, int64LeBytes]
  rcases lt_or_le n 32 with hlt | hge
  · rw [if_pos (by omega)]
    rw [hmod 0 (by omega) (by omega), hmod n (by omega) (by omega)]
    rw [show max 0 (n - 32) = 0 by omega]
    rfl
  · rw [if_neg (by omega)]
    rw [hmod (n - 32) (by omega) (by omega), hmod n (by omega) (by omega),
      hmod 0 (by omega) (by omega)]
    rw [show max 0 (n - 32) = n - 32 by omega]
    rfl

/-- Concrete instance discharging the hypotheses of the amended C7 theorem. -/
theorem requestIdrFrame_payload_le_witness :
    ((0 : Int) ≤ 100 ∧ (100 : Int) < 2 ^ 31)
    ∧ requestIdrFramePayloadGen5 100
        = leBytes64 (max 0 ((100 : Int) - 32)).toNat ++ leBytes64 (100 : Int).toNat
          ++ leBytes64 0 :=
  ⟨⟨by decide, by decide⟩, requestIdrFrame_payload_le 100 (by decide) (by decide)⟩


/-- The two connection statuses reported through
`ListenerCallbacks.connectionStatusUpdate`. -/
inductive ConnStatus where
  | okay
  | poor
deriving DecidableEq

/-- Mutable state read and written by `connectionSawFrame`. -/
structure ConnState where
  intervalGoodFrameCount : Nat
  intervalTotalFrameCount : Nat
  intervalStartTimeMs : Nat
  lastIntervalLossPercentage : Int
  lastConnectionStatusUpdate : ConnStatus
  lastSeenFrame : Nat
deriving DecidableEq

def CONN_IMMEDIATE_POOR_LOSS_RATE : Int := 30

def CONN_CONSECUTIVE_POOR_LOSS_RATE : Int := 15

def CONN_OKAY_LOSS_RATE : Int := 5

def CONN_STATUS_SAMPLE_PERIOD : Nat := 3000

/-- The `frameLossPercent` computation: `100 - (good * 100) / total`,
with C integer division on the nonnegative counters. -/
def frameLossPercent (good total : Nat) : Int :=
  100 - ((good * 100 / total : Nat) : Int)

/-- Inner block of `connectionSawFrame` executed when the 3000 ms sample
period has elapsed and `intervalTotalFrameCount` is nonzero: computes the
loss percentage, possibly emits a status update, and records the loss
percentage for the next interval. -/
def intervalCheck (s : ConnState) : ConnState × Option ConnStatus :=
  if s.intervalTotalFrameCount ≠ 0 then
    let p := frameLossPercent s.intervalGoodFrameCount s.intervalTotalFrameCount
    if s.lastConnectionStatusUpdate ≠ ConnStatus.poor ∧
        (CONN_IMMEDIATE_POOR_LOSS_RATE ≤ p ∨
          (CONN_CONSECUTIVE_POOR_LOSS_RATE ≤ p ∧
            CONN_CONSECUTIVE_POOR_LOSS_RATE ≤ s.lastIntervalLossPercentage)) then
      ({ s with lastConnectionStatusUpdate := ConnStatus.poor,
                lastIntervalLossPercentage := p }, some ConnStatus.poor)
    else if p ≤ CONN_OKAY_LOSS_RATE ∧
        s.lastConnectionStatusUpdate ≠ ConnStatus.okay then
      ({ s with lastConnectionStatusUpdate := ConnStatus.okay,
                lastIntervalLossPercentage := p }, some ConnStatus.okay)
    else
      ({ s with lastIntervalLossPercentage := p }, none)
  else (s, none)

/-- Model of `connectionSawFrame`: when the sample period has elapsed, run
the interval check and reset the interval; in every call, accumulate
`frameIndex - lastSeenFrame` into the total frame count and record the
frame as last seen.  The current time `now` (`PltGetMillis()`) is an
explicit input.  Returns the new state and the emitted status update, if
any. -/
def connectionSawFrame (s : ConnState) (frameIndex now : Nat) :
    ConnState × Option ConnStatus :=
  let r :=
    if CONN_STATUS_SAMPLE_PERIOD ≤ now - s.intervalStartTimeMs then
      let r0 := intervalCheck s
      ({ r0.1 with intervalStartTimeMs := now, intervalGoodFrameCount := 0,
                   intervalTotalFrameCount := 0 }, r0.2)
    else (s, none)
  let s1 := r.1
  let total := s1.intervalTotalFrameCount + (frameIndex - s1.lastSeenFrame)
  ({ s1 with intervalTotalFrameCount := total, lastSeenFrame := frameIndex }, r.2)

/-- C4: hysteresis of the connection quality monitor, at the granularity of
one `connectionSawFrame` call that crosses a 3000 ms window boundary with a
nonzero total frame count.  (1) From OKAY, a window with loss >= 30% emits
POOR.  (2) From OKAY with the previous window's loss below 15% (as after
initialization), a window with loss in 15..29% emits nothing, stays OKAY and
records the loss, so that (3) the next window with loss in 15..29% -- now
with a recorded previous loss >= 15% -- emits POOR.  (4) From POOR, a window
with loss <= 5% emits OKAY.  (5) A window with loss strictly between 5% and
15% never changes the status, from any state. -/
theorem connectionSawFrame_hysteresis :
    (∀ (s : ConnState) (idx now : Nat),
      s.lastConnectionStatusUpdate = ConnStatus.okay →
      3000 ≤ now - s.intervalStartTimeMs →
      s.intervalTotalFrameCount ≠ 0 →
      30 ≤ frameLossPercent s.intervalGoodFrameCount s.intervalTotalFrameCount →
      (connectionSawFrame s idx now).2 = some ConnStatus.poor ∧
      (connectionSawFrame s idx now).1.lastConnectionStatusUpdate = ConnStatus.poor)
    ∧ (∀ (s : ConnState) (idx now : Nat),
      s.lastConnectionStatusUpdate = ConnStatus.okay →
      s.lastIntervalLossPercentage < 15 →
      3000 ≤ now - s.intervalStartTimeMs →
      s.intervalTotalFrameCount ≠ 0 →
      15 ≤ frameLossPercent s.intervalGoodFrameCount s.intervalTotalFrameCount →
      frameLossPercent s.intervalGoodFrameCount s.intervalTotalFrameCount < 30 →
      (connectionSawFrame s idx now).2 = none ∧
      (connectionSawFrame s idx now).1.lastConnectionStatusUpdate = ConnStatus.okay ∧
      (connectionSawFrame s idx now).1.lastIntervalLossPercentage
        = frameLossPercent s.intervalGoodFrameCount s.intervalTotalFrameCount)
    ∧ (∀ (s : ConnState) (idx now : Nat),
      s.lastConnectionStatusUpdate = ConnStatus.okay →
      15 ≤ s.lastIntervalLossPercentage →
      3000 ≤ now - s.intervalStartTimeMs →
      s.intervalTotalFrameCount ≠ 0 →
      15 ≤ frameLossPercent s.intervalGoodFrameCount s.intervalTotalFrameCount →
      frameLossPercent s.intervalGoodFrameCount s.intervalTotalFrameCount < 30 →
      (connectionSawFrame s idx now).2 = some ConnStatus.poor ∧
      (connectionSawFrame s idx now).1.lastConnectionStatusUpdate = ConnStatus.poor)
    ∧ (∀ (s : ConnState) (idx now : Nat),
      s.lastConnectionStatusUpdate = ConnStatus.poor →
      3000 ≤ now - s.intervalStartTimeMs →
      s.intervalTotalFrameCount ≠ 0 →
      frameLossPercent s.intervalGoodFrameCount s.intervalTotalFrameCount ≤ 5 →
      (connectionSawFrame s idx now).2 = some ConnStatus.okay ∧
      (connectionSawFrame s idx now).1.lastConnectionStatusUpdate = ConnStatus.okay)
    ∧ (∀ (s : ConnState) (idx now : Nat),
      3000 ≤ now - s.intervalStartTimeMs →
      s.intervalTotalFrameCount ≠ 0 →
      5 < frameLossPercent s.intervalGoodFrameCount s.intervalTotalFrameCount →
      frameLossPercent s.intervalGoodFrameCount s.intervalTotalFrameCount < 15 →
      (connectionSawFrame s idx now).2 = none ∧
      (connectionSawFrame s idx now).1.lastConnectionStatusUpdate
        = s.lastConnectionStatusUpdate) := by
  refine ⟨?_, ?_, ?_, ?_, ?_⟩
  · intro s idx now hst hcross htot hp
    simp only [connectionSawFrame, CONN_STATUS_SAMPLE_PERIOD, if_pos hcross,
      intervalCheck, if_pos htot]
    rw [if_pos ⟨by simp [hst], Or.inl (by
      simpa [CONN_IMMEDIATE_POOR_LOSS_RATE] using hp)⟩]
    exact ⟨rfl, rfl⟩
  · intro s idx now hst hprev hcross htot hp1 hp2
    simp only [connectionSawFrame, CONN_STATUS_SAMPLE_PERIOD, if_pos hcross,
      intervalCheck, if_pos htot]
    rw [if_neg (by
      simp only [CONN_IMMEDIATE_POOR_LOSS_RATE, CONN_CONSECUTIVE_POOR_LOSS_RATE]
      rintro ⟨-, h | ⟨-, h2⟩⟩
      · omega
      · omega)]
    rw [if_neg (by
      simp only [CONN_OKAY_LOSS_RATE, hst]
      rintro ⟨h, h2⟩
      · omega)]
    exact ⟨rfl, by simpa using hst, rfl⟩
  · intro s idx now hst hprev hcross htot hp1 hp2
    simp only [connectionSawFrame, CONN_STATUS_SAMPLE_PERIOD, if_pos hcross,
      intervalCheck, if_pos htot]
    rw [if_pos ⟨by simp [hst], Or.inr ⟨by
      simpa [CONN_CONSECUTIVE_POOR_LOSS_RATE] using hp1, by
      simpa [CONN_CONSECUTIVE_POOR_LOSS_RATE] using hprev⟩⟩]
    exact ⟨rfl, rfl⟩
  · intro s idx now hst hcross htot hp
    simp only [connectionSawFrame, CONN_STATUS_SAMPLE_PERIOD, if_pos hcross,
      intervalCheck, if_pos htot]
    rw [if_neg (by
      rintro ⟨h, -⟩
      exact h (by simp [hst]))]
    rw [if_pos ⟨by simpa [CONN_OKAY_LOSS_RATE] using hp, by simp [hst]⟩]
    exact ⟨rfl, rfl⟩
  · intro s idx now hcross htot hp1 hp2
    simp only [connectionSawFrame, CONN_STATUS_SAMPLE_PERIOD, if_pos hcross,
      intervalCheck, if_pos htot]
    rw [if_neg (by
      simp only [CONN_IMMEDIATE_POOR_LOSS_RATE, CONN_CONSECUTIVE_POOR_LOSS_RATE]
      rintro ⟨-, h | ⟨h2, -⟩⟩
      · omega
      · omega)]
    rw [if_neg (by
      simp only [CONN_OKAY_LOSS_RATE]
      rintro ⟨h, -⟩
      omega)]
    exact ⟨rfl, rfl⟩


/-- Concrete windows discharging the hypotheses of the hysteresis theorem:
40% loss from OKAY emits POOR; 20% loss from fresh OKAY emits nothing; 20%
loss with a 20% previous window emits POOR; 0% loss from POOR emits OKAY;
10% loss emits nothing. -/
theorem connectionSawFrame_hysteresis_witness :
    (connectionSawFrame ⟨60, 100, 0, 0, ConnStatus.okay, 10⟩ 11 3000).2
        = some ConnStatus.poor
    ∧ (connectionSawFrame ⟨80, 100, 0, 0, ConnStatus.okay, 10⟩ 11 3000).2 = none
    ∧ (connectionSawFrame ⟨80, 100, 0, 20, ConnStatus.okay, 10⟩ 11 3000).2
        = some ConnStatus.poor
    ∧ (connectionSawFrame ⟨100, 100, 0, 20, ConnStatus.poor, 10⟩ 11 3000).2
        = some ConnStatus.okay
    ∧ (connectionSawFrame ⟨90, 100, 0, 0, ConnStatus.okay, 10⟩ 11 3000).2 = none :=
  ⟨(connectionSawFrame_hysteresis.1 _ 11 3000 rfl (by decide) (by decide)
      (by decide)).1,
   (connectionSawFrame_hysteresis.2.1 _ 11 3000 rfl (by decide) (by decide)
      (by decide) (by decide) (by decide)).1,
   (connectionSawFrame_hysteresis.2.2.1 _ 11 3000 rfl (by decide) (by decide)
      (by decide) (by decide) (by decide)).1,
   (connectionSawFrame_hysteresis.2.2.2.1 _ 11 3000 rfl (by decide) (by decide)
      (by decide)).1,
   (connectionSawFrame_hysteresis.2.2.2.2 _ 11 3000 (by decide) (by decide)
      (by decide) (by decide)).1⟩

def PERIODIC_PING_INTERVAL_MS : Nat := 250

def LOSS_REPORT_INTERVAL_MS : Nat := 50

/-- Message type used for the periodic ping in `lossStatsThreadFunc`. -/
def periodicPingMessageType : Nat := 0x0200

/-- Overwrite `bytes.length` bytes of `buf` starting at `pos` (a `BbPut`
sequence into a wrapped buffer). -/
def writeBytesAt (buf : List Nat) (pos : Nat) (bytes : List Nat) : List Nat :=
  buf.take pos ++ bytes ++ buf.drop (pos + bytes.length)

/-- The 8-byte periodic ping payload of `lossStatsThreadFunc` as a function
of the initial contents of the stack buffer `periodicPingPayload`: the code
writes only `BbPut16 4` and `BbPut32 0` (6 bytes) and sends all 8 bytes, so
the last 2 bytes of the uninitialized stack buffer pass through. -/
def periodicPingPayloadBytes (stackBuf : List Nat) : List Nat :=
  writeBytesAt (writeBytesAt stackBuf 0 (leBytes16 4)) 2 (leBytes32 0)

/-- C6, counterexample: if the uninitialized 8-byte stack buffer happens to
hold `0xCC` bytes, the sent payload is not the claimed fixed payload ending
in two zero bytes. -/
theorem periodicPing_trailing_not_zero :
    periodicPingPayloadBytes (List.replicate 8 0xCC)
      ≠ [0x04, 0x00, 0x00, 0x00, 0x00, 0x00, 0x00, 0x00] := by
  decide

/-- C6 (amended): every iteration of the periodic-ping telemetry worker
sends message type 0x0200 with an 8-byte payload whose first 6 bytes are
`[4: u16 LE][0: u32 LE]`; the 2 trailing bytes are the untouched remainder
of the stack buffer (zero only if the buffer happened to hold zero), and the
worker then waits 250 ms. -/
theorem periodicPing_payload (stackBuf : List Nat) (h : stackBuf.length = 8) :
    periodicPingPayloadBytes stackBuf
        = [0x04, 0x00, 0x00, 0x00, 0x00, 0x00] ++ stackBuf.drop 6
    ∧ (periodicPingPayloadBytes stackBuf).length = 8
    ∧ periodicPingMessageType = 0x0200
    ∧ PERIODIC_PING_INTERVAL_MS = 250 := by
  have h1 : periodicPingPayloadBytes stackBuf
      = [0x04, 0x00, 0x00, 0x00, 0x00, 0x00] ++ stackBuf.drop 6 := by
    simp only [periodicPingPayloadBytes, writeBytesAt, leBytes16, leBytes32]
    simp [List.drop_drop]
  refine ⟨h1, ?_, rfl, rfl⟩
  rw [h1]
  simp
  omega

/-- Concrete instance discharging the hypothesis of the amended C6
theorem. -/
theorem periodicPing_payload_witness :
    (List.replicate 8 0xCC).length = 8
    ∧ periodicPingPayloadBytes (List.replicate 8 0xCC)
        = [0x04, 0x00, 0x00, 0x00, 0x00, 0x00] ++ (List.replicate 8 0xCC).drop 6 :=
  ⟨by decide, (periodicPing_payload (List.replicate 8 0xCC) (by decide)).1⟩


/-- Ciphertext proper (excluding the tag) of the Gen7 legacy input GCM
encryption in `encryptData`, which uses the session IV `currentAesIv`. -/
def inputGcmCiphertext (g : GcmPrims) (key iv pt : List Nat) : List Nat :=
  xorStream (g.ks key iv) 0 pt

/-- Output buffer of `encryptData` on the Gen7 path: the 16-byte tag
prepended to the ciphertext (`encryptedSize = ciphertext length + 16`). -/
def encryptDataGcm (g : GcmPrims) (key iv pt : List Nat) : List Nat :=
  gcmTagBytes g key iv (inputGcmCiphertext g key iv pt)
    ++ inputGcmCiphertext g key iv pt

/-- The IV-rolling quirk of `inputSendThreadProc`: if
`encryptedSize >= 16 + sizeof(currentAesIv)`, overwrite the session IV with
the last 16 bytes of the encrypted buffer; otherwise leave it unchanged. -/
def rollInputIv (iv enc : List Nat) : List Nat :=
  if 16 + 16 ≤ enc.length then enc.drop (enc.length - 16) else iv

/-- One legacy (non-unified) Gen7 send of `inputSendThreadProc`: encrypt the
packet, form the wire frame by prepending the big-endian u32 length, and
apply the IV-rolling quirk.  Returns the wire frame and the new session
IV. -/
def inputSendGen7Step (g : GcmPrims) (key iv pt : List Nat) :
    List Nat × List Nat :=
  let enc := encryptDataGcm g key iv pt
  (beBytes32 enc.length ++ enc, rollInputIv iv enc)

theorem encryptDataGcm_length (g : GcmPrims) (key iv pt : List Nat) :
    (encryptDataGcm g key iv pt).length = 16 + pt.length := by
  simp [encryptDataGcm, inputGcmCiphertext, gcmTagBytes, xorStream_length]
  omega

/-- C8: on the legacy Gen7 input path, after a packet is encrypted and sent,
the session IV becomes the last 16 bytes of the just-sent ciphertext when
the ciphertext is at least 16 bytes, and is unchanged when the ciphertext is
shorter. -/
theorem inputSendGen7_iv_roll (g : GcmPrims) (key iv pt : List Nat) :
    (16 ≤ pt.length →
      (inputSendGen7Step g key iv pt).2
        = (inputGcmCiphertext g key iv pt).drop
            ((inputGcmCiphertext g key iv pt).length - 16))
    ∧ (pt.length < 16 → (inputSendGen7Step g key iv pt).2 = iv) := by
  have hct : (inputGcmCiphertext g key iv pt).length = pt.length := by
    simp [inputGcmCiphertext, xorStream_length]
  have henc : (encryptDataGcm g key iv pt).length = 16 + pt.length :=
    encryptDataGcm_length g key iv pt
  constructor
  · intro h
    simp only [inputSendGen7Step, rollInputIv, if_pos (by omega : 16 + 16 ≤
      (encryptDataGcm g key iv pt).length)]
    rw [henc, show 16 + pt.length - 16 = 16 + (pt.length - 16) by omega]
    rw [encryptDataGcm, show (16 : Nat) + (pt.length - 16)
        = (gcmTagBytes g key iv (inputGcmCiphertext g key iv pt)).length
          + (pt.length - 16) by rw [gcmTagBytes_length]]
    rw [List.drop_append, hct]
  · intro h
    simp only [inputSendGen7Step, rollInputIv]
    rw [if_neg (by omega)]

/-- Concrete instances discharging the hypotheses of the C8 theorem: a
16-byte packet rolls the IV onto the full ciphertext, a 1-byte packet leaves
the IV unchanged. -/
theorem inputSendGen7_iv_roll_witness :
    (inputSendGen7Step zeroGcm [] [3, 1, 4] (List.replicate 16 7)).2
        = (inputGcmCiphertext zeroGcm [] [3, 1, 4] (List.replicate 16 7)).drop
            ((inputGcmCiphertext zeroGcm [] [3, 1, 4] (List.replicate 16 7)).length - 16)
    ∧ (inputSendGen7Step zeroGcm [] [3, 1, 4] [9]).2 = [3, 1, 4] :=
  ⟨(inputSendGen7_iv_roll zeroGcm [] [3, 1, 4] (List.replicate 16 7)).1 (by decide),
   (inputSendGen7_iv_roll zeroGcm [] [3, 1, 4] [9]).2 (by decide)⟩

/-- A packet held in the input `packetQueue`, identified by the
`packetType` field of its header as `inputSendThreadProc` does; only the
fields relevant to coalescing are modelled, other packet kinds carry a
plain tag. -/
inductive QueuedPacket where
  | relMouse (deltaX deltaY : Int)
  | otherKind (tag : Nat)
deriving DecidableEq

/-- Batching loop of `inputSendThreadProc` for a relative mouse move: peek
at the next packet; stop if it is not a relative mouse move or if adding its
deltas to the running totals would overflow int16; otherwise consume it and
accumulate. -/
def relMouseBatchLoop : Int → Int → List QueuedPacket →
    Int × Int × List QueuedPacket
  | tx, ty, [] => (tx, ty, [])
  | tx, ty, QueuedPacket.relMouse px py :: rest =>
    if 32767 < px + tx ∨ px + tx < -32768 ∨ 32767 < py + ty ∨ py + ty < -32768 then
      (tx, ty, QueuedPacket.relMouse px py :: rest)
    else relMouseBatchLoop (tx + px) (ty + py) rest
  | tx, ty, p :: rest => (tx, ty, p :: rest)

/-- Dispatch of one popped queue head by `inputSendThreadProc`: a relative
mouse move coalesces through `relMouseBatchLoop`; other packets here are
sent as they are.  Returns the packet actually sent and the remaining
queue. -/
def dispatchOnce : QueuedPacket → List QueuedPacket →
    QueuedPacket × List QueuedPacket
  | QueuedPacket.relMouse dx dy, rest =>
    let r := relMouseBatchLoop dx dy rest
    (QueuedPacket.relMouse r.1 r.2.1, r.2.2)
  | p, rest => (p, rest)

/-- Repeatedly pop and dispatch until the queue is empty, collecting the
sent packets in order; `fuel` bounds the iteration count and is always
sufficient since every dispatch consumes at least the popped head. -/
def serviceQueueFuel : Nat → List QueuedPacket → List QueuedPacket
  | 0, _ => []
  | _, [] => []
  | fuel + 1, p :: rest =>
    let r := dispatchOnce p rest
    r.1 :: serviceQueueFuel fuel r.2

/-- All packets sent by the dispatch worker when it services the whole
queue. -/
def serviceQueue (q : List QueuedPacket) : List QueuedPacket :=
  serviceQueueFuel q.length q

/-- C9, counterexample: after queueing `(30000, 0)` three times, the worker
does NOT coalesce the first two packets into one send of `60000` followed by
the third: already the first coalescing step is aborted because
`30000 + 30000` exceeds `INT16_MAX`. -/
theorem relMouse_30000_not_two_sends :
    serviceQueue [QueuedPacket.relMouse 30000 0, QueuedPacket.relMouse 30000 0,
        QueuedPacket.relMouse 30000 0]
      ≠ [QueuedPacket.relMouse 60000 0, QueuedPacket.relMouse 30000 0] := by
  decide

/-- C9 (amended): servicing the queue after queueing `(30000, 0)` three
times sends all three packets separately with deltaX 30000 each, because the
coalescing loop aborts whenever the accumulated delta sum would overflow
int16 -- as the second conjunct states in general. -/
theorem relMouse_30000_three_sends :
    serviceQueue [QueuedPacket.relMouse 30000 0, QueuedPacket.relMouse 30000 0,
        QueuedPacket.relMouse 30000 0]
      = [QueuedPacket.relMouse 30000 0, QueuedPacket.relMouse 30000 0,
         QueuedPacket.relMouse 30000 0]
    ∧ (∀ (tx ty px py : Int) (rest : List QueuedPacket),
        (32767 < px + tx ∨ px + tx < -32768 ∨ 32767 < py + ty ∨ py + ty < -32768) →
        relMouseBatchLoop tx ty (QueuedPacket.relMouse px py :: rest)
          = (tx, ty, QueuedPacket.relMouse px py :: rest)) := by
  constructor
  · decide
  · intro tx ty px py rest h
    simp only [relMouseBatchLoop, if_pos h]

/-- Concrete instance discharging the hypothesis of the overflow-abort
conjunct of the amended C9 theorem. -/
theorem relMouse_30000_three_sends_witness :
    (32767 < (30000 : Int) + 30000 ∨ (30000 : Int) + 30000 < -32768 ∨
      32767 < (0 : Int) + 0 ∨ (0 : Int) + 0 < -32768)
    ∧ relMouseBatchLoop 30000 0 [QueuedPacket.relMouse 30000 0]
        = (30000, 0, [QueuedPacket.relMouse 30000 0]) :=
  ⟨by decide,
    relMouse_30000_three_sends.2 30000 0 30000 0 [] (by decide)⟩

def LBQ_SUCCESS : Int := 0

/-- Modelled from the spec: the linked blocking queue is an out-of-scope
collaborator whose header is not under `src/`; offering to a full bounded
queue fails with a distinguished nonzero code. -/
def LBQ_BOUND_EXCEEDED : Int := 1

/-- Offer operation `LbqOfferQueueItem` on the input `packetQueue` (bound 30). -/
def lbqOffer (q : List QueuedPacket) (p : QueuedPacket) :
    Int × List QueuedPacket :=
  if q.length < 30 then (LBQ_SUCCESS, q ++ [p]) else (LBQ_BOUND_EXCEEDED, q)

/-- Model of `LiSendMouseMoveEvent`: reject with -2 before initialization,
return 0 immediately when both deltas are zero (no holder is allocated or
queued), otherwise allocate a relative-mouse-move holder and offer it to the
queue, freeing it on failure.  Returns the result code and the new queue. -/
def LiSendMouseMoveEvent (initialized : Bool) (q : List QueuedPacket)
    (deltaX deltaY : Int) : Int × List QueuedPacket :=
  if initialized = false then (-2, q)
  else if deltaX = 0 ∧ deltaY = 0 then (0, q)
  else lbqOffer q (QueuedPacket.relMouse deltaX deltaY)

/-- C10: after initialization, a mouse-move event with both deltas zero
returns 0 and leaves the packet queue unchanged, for every queue
content. -/
theorem liSendMouseMoveEvent_zero_delta (q : List QueuedPacket) :
    LiSendMouseMoveEvent true q 0 0 = (0, q) := by
  simp [LiSendMouseMoveEvent]

end Moonlight
